import Mathlib

/-!
# DeepLX-Shell: a shallow embedding of `main.go`

The program is a command-line front end of a DeepLX translation endpoint.
This file embeds the functions of `main.go` as Lean functions over an explicit
process state (`World`) and states the properties of the specification over
them.

Conventions of the embedding.

* A Go `string` / `[]byte` is a `Str`, a list of characters.  Every separator
  and every pattern character the program uses (`:`, `=`, `-`, `A`-`Z`, line
  feed, carriage return) is ASCII, so splitting and matching by character and
  by byte agree.
* Functions with side effects take the `World` before the call and return the
  `World` after it together with an `Outcome`: a normal return, `os.Exit`, or
  a panic.
* What the operating system, the network and `encoding/json` do is not code of
  the program.  The file system is a small explicit state inside `World`; the
  HTTP round trip, JSON decoding and reading of an arbitrary file are the
  fields of a `Host`, over which every theorem quantifies.
-/

namespace DeepLX

/-! ## Strings and the `strings` package -/

/-- A Go string, as the list of its characters. -/
abbrev Str := List Char

/-- The line feed character. -/
def LF : Char := Char.ofNat 10

/-- The carriage return character. -/
def CR : Char := Char.ofNat 13

/-- The NUL character. -/
def NUL : Char := Char.ofNat 0

/-- Go `strings.Split(s, sep)` for a one-character separator (the program only
calls it with `":"` and `"="`): all the substrings between occurrences of the
separator, so the result has one more element than `s` has separators. -/
def Split : Str → Char → List Str
  | [], _ => [[]]
  | c :: cs, sep =>
    if c = sep then [] :: Split cs sep
    else match Split cs sep with
      | [] => [[c]]
      | h :: t => (c :: h) :: t

/-! ## Errors, panics and outcomes -/

/-- The `syscall.Errno` values that occur in the model. -/
inductive Errno where
  | ENOENT
  | EACCES
  | EINVAL
  | ENOTDIR
  | EROFS
  | EIO
  deriving DecidableEq, Repr

/-- Go `error` values, by dynamic type. -/
inductive GoError where
  /-- A `syscall.Errno`. -/
  | errno (code : Errno)
  /-- A `*fs.PathError` wrapping `err`. -/
  | pathError (op path : Str) (err : GoError)
  /-- A `*os.SyscallError` wrapping `err`. -/
  | syscallError (call : Str) (err : GoError)
  /-- The result of `errors.New(msg)`. -/
  | errorString (msg : Str)
  /-- An error made by `net/http`, `encoding/json` or `io`, not inspected by the program. -/
  | foreign (tag : Nat)
  deriving DecidableEq, Repr

/-- The dynamic (concrete) types of the error values. -/
inductive GoType where
  | Errno
  | PathError
  | SyscallError
  | errorString
  | foreign
  deriving DecidableEq, Repr

/-- What the second argument of `errors.As` points to: a variable of the
interface type `error`, or a variable of a concrete type. -/
inductive AsTarget where
  | errorInterface
  | concrete (t : GoType)
  deriving DecidableEq, Repr

/-- The dynamic type of an error value. -/
def GoError.typeOf : GoError → GoType
  | .errno _ => .Errno
  | .pathError _ _ _ => .PathError
  | .syscallError _ _ => .SyscallError
  | .errorString _ => .errorString
  | .foreign _ => .foreign

/-- Go assignability of an error value of dynamic type `t` to the target of
`errors.As`: every error value is assignable to a variable of type `error`. -/
def assignableTo (t : GoType) : AsTarget → Bool
  | .errorInterface => true
  | .concrete u => decide (t = u)

/-- Go `errors.As(err, target)`: walks the `Unwrap` chain of `err` and reports
whether some error of the chain is assignable to what `target` points to. -/
def errorsAs : GoError → AsTarget → Bool
  | .errno c, t => assignableTo (GoError.errno c).typeOf t
  | .pathError op p inner, t =>
    assignableTo (GoError.pathError op p inner).typeOf t || errorsAs inner t
  | .syscallError c inner, t =>
    assignableTo (GoError.syscallError c inner).typeOf t || errorsAs inner t
  | .errorString m, t => assignableTo (GoError.errorString m).typeOf t
  | .foreign n, t => assignableTo (GoError.foreign n).typeOf t

/-- The value a Go panic carries: an `error` passed to `panic`, or the run-time
error of an out-of-range index. -/
inductive PanicVal where
  | error (e : GoError)
  | indexOutOfRange (index len : Nat)
  deriving DecidableEq, Repr

/-- How a call ends: it returns `a`, the process exits through `os.Exit`, or it
panics. -/
inductive Outcome (α : Type) where
  | ret (a : α)
  | exit (status : Nat)
  | panic (p : PanicVal)
  deriving DecidableEq, Repr

/-- Go slice indexing `xs[i]`, which panics when `i` is out of range. -/
def index (xs : List Str) (i : Nat) : Except PanicVal Str :=
  match xs.get? i with
  | some x => .ok x
  | none => .error (.indexOutOfRange i xs.length)

/-! ## Regular expressions (the fragment of `regexp` the program uses) -/

/-- The regular expressions the two patterns of the program are made of. -/
inductive Regex where
  /-- The empty pattern. -/
  | empty
  /-- A literal character. -/
  | char (c : Char)
  /-- A character class `[lo-hi]`. -/
  | range (lo hi : Char)
  /-- Concatenation. -/
  | seq (a b : Regex)
  /-- Alternation `a|b`. -/
  | alt (a b : Regex)
  /-- An optional group `(?:a)?`. -/
  | opt (a : Regex)
  /-- The counted repetition `a{n}`. -/
  | rep (n : Nat) (a : Regex)
  /-- The assertion `$` (without the `m` flag): end of text. -/
  | eot

/-- Apply `f` to every element of `acc`, `n` times in a row. -/
def iterFlatMap (f : Str → List Str) : Nat → List Str → List Str
  | 0, acc => acc
  | n + 1, acc => iterFlatMap f n (acc.flatMap f)

/-- All the ways `re` matches at the start of `s`: the list of what remains of
`s` after each match. -/
def matchAt : Regex → Str → List Str
  | .empty, s => [s]
  | .char c, s =>
    match s with
    | [] => []
    | x :: xs => if x = c then [xs] else []
  | .range lo hi, s =>
    match s with
    | [] => []
    | x :: xs => if lo ≤ x ∧ x ≤ hi then [xs] else []
  | .seq a b, s => (matchAt a s).flatMap (fun t => matchAt b t)
  | .alt a b, s => matchAt a s ++ matchAt b s
  | .opt a, s => matchAt a s ++ [s]
  | .rep n a, s => iterFlatMap (fun t => matchAt a t) n [s]
  | .eot, s => if s = [] then [s] else []

/-- Go `re.MatchString(s)` / `re.Match(b)`: whether `re` matches somewhere in
`s` (the search is not anchored at the start). -/
def MatchString (re : Regex) (s : Str) : Bool :=
  s.tails.any (fun t => !(matchAt re t).isEmpty)

/-- The pattern that is the literal text `s`. -/
def Regex.lit : Str → Regex
  | [] => .empty
  | c :: cs => .seq (.char c) (Regex.lit cs)

/-- The class `[A-Z]`. -/
def upper : Regex := .range 'A' 'Z'

/-- The pattern `[A-Z]{2}:[A-Z]{2}(?:-(?:[A-Z]{2}|[A-Z]{4}))?$` of `main.go`. -/
def langCode : Regex :=
  .seq (.rep 2 upper) (.seq (.char ':') (.seq (.rep 2 upper)
    (.seq (.opt (.seq (.char '-') (.alt (.rep 2 upper) (.rep 4 upper)))) .eot)))

/-- The text the endpoint answers with when it rejects the target language. -/
def targetLangNotSupportedText : Str := "Value for 'target_lang' not supported".toList

/-- The pattern `Value for 'target_lang' not supported` of `main.go`; none of
its characters is special in a regular expression. -/
def targetLangNotSupported : Regex := Regex.lit targetLangNotSupportedText

/-! ## Data model -/

/-- The JSON response of the endpoint. -/
structure DeepLXResp where
  Code : Int
  ID : Int
  Data : Str
  Alternatives : List Str
  deriving DecidableEq, Repr

/-- The JSON request sent to the endpoint. -/
structure DeepLXReq where
  Text : Str
  SourceLang : Str
  TargetLang : Str
  deriving DecidableEq, Repr

/-- One call of the translation client `parseDeepLX`: the URL read from the
environment variable `API` and the request posted to it. -/
structure Call where
  api : Str
  req : DeepLXReq
  deriving DecidableEq, Repr

/-- The state of the process and of the part of the file system it touches. -/
structure World where
  /-- The process environment, most recent binding first. -/
  env : List (Str × Str)
  /-- Whether the configuration directory exists. -/
  cfgDir : Bool
  /-- The content of `config.cfg` when the file exists. -/
  cfgFile : Option Str
  /-- The error the operating system reports when `config.cfg` is opened for a
  reason other than a missing directory (for example `EACCES`). -/
  openFault : Option Errno
  /-- When `os.MkdirAll` fails on the configuration directory: the path it
  names in its error, which is the directory itself or the ancestor whose
  `mkdir` failed, and the error number. -/
  mkdirFault : Option (Str × Errno)
  /-- The bytes of standard input. -/
  stdin : Str
  /-- The calls of the translation client so far, oldest first. -/
  calls : List Call
  /-- The lines written by `fmt.Println` so far, oldest first. -/
  stdout : List Str
  deriving DecidableEq, Repr

/-- What is outside the program: the HTTP round trip, JSON decoding and the
content of the files given with `-f`. -/
structure Host where
  /-- The result of `json.Marshal`, `http.NewRequest`, `client.Do` and
  `io.ReadAll` for a call, given the calls made before it: the response body
  or the first error. -/
  post : List Call → Call → Except GoError Str
  /-- The result of `json.Unmarshal(text, &dlxResp)`. -/
  unmarshal : Str → Except GoError DeepLXResp
  /-- The result of `os.Open(filePath)` followed by `io.ReadAll`. -/
  readFile : Str → Except GoError Str

/-- The command-line flags after `flag.Parse()`; an absent flag is `""`. -/
structure Flags where
  z : Str
  e : Str
  l : Str
  c : Str
  f : Str
  deriving DecidableEq, Repr

/-! ## The `os`, `fmt` and `bufio` operations the program calls -/

/-- Go `os.Getenv(key)`: the value of the variable, `""` when it is unset. -/
def Getenv (w : World) (key : Str) : Str :=
  match w.env.lookup key with
  | some v => v
  | none => []

/-- Go `os.Setenv(key, value)`: fails with `EINVAL` on an empty key, a key with
`=` or NUL, or a value with NUL. -/
def Setenv (w : World) (key value : Str) : Except GoError World :=
  if key.isEmpty || key.any (fun c => c == '=' || c == NUL) || value.any (fun c => c == NUL) then
    .error (.syscallError "setenv".toList (.errno .EINVAL))
  else
    .ok { w with env := (key, value) :: w.env }

/-- Go `fmt.Println` of one line of text on standard output. -/
def Println (w : World) (line : Str) : World :=
  { w with stdout := w.stdout ++ [line] }

/-- The configuration directory, `$HOME/.config/deeplx-for-command-line/`. -/
def cfgPath (w : World) : Str :=
  Getenv w "HOME".toList ++ "/.config/deeplx-for-command-line/".toList

/-- Go `os.OpenFile(path+"config.cfg", os.O_RDONLY|os.O_CREATE, 0644)`: the
content of the file.  A missing file is created empty; a missing directory is
not created and gives `ENOENT`. -/
def OpenFile (w : World) : Except GoError Str × World :=
  let name := cfgPath w ++ "config.cfg".toList
  match w.openFault with
  | some e => (.error (.pathError "open".toList name (.errno e)), w)
  | none =>
    if w.cfgDir then
      match w.cfgFile with
      | some content => (.ok content, w)
      | none => (.ok [], { w with cfgFile := some [] })
    else
      (.error (.pathError "open".toList name (.errno .ENOENT)), w)

/-- Go `os.MkdirAll(path, 0755)` on the configuration directory.  It creates the
missing ancestors first, so its error is the `*fs.PathError` of the `mkdir`
that failed, with the path of that directory. -/
def MkdirAll (w : World) : Option GoError × World :=
  match w.mkdirFault with
  | some (failedPath, e) => (some (.pathError "mkdir".toList failedPath (.errno e)), w)
  | none => (none, { w with cfgDir := true })

/-- Go `bufio.MaxScanTokenSize`. -/
def maxScanTokenSize : Nat := 64 * 1024

/-- The length of a string in bytes (UTF-8). -/
def byteLen (s : Str) : Nat := (s.map Char.utf8Size).sum

/-- Go `dropCR` of `bufio`: drop one trailing carriage return. -/
def dropCR (s : Str) : Str :=
  if s.getLast? = some CR then s.dropLast else s

/-- Go `bufio.ErrTooLong`. -/
def ErrTooLong : GoError := .errorString "bufio.Scanner: token too long".toList

/-- The tokens a `bufio.Scanner` with the default `ScanLines` yields on the
rest of the input, and the value of `scanner.Err()` afterwards; `cur` is the
current line so far, reversed. -/
def scanFrom : Str → Str → List Str × Option GoError
  | [], cur =>
    if cur = [] then ([], none)
    else if maxScanTokenSize ≤ byteLen cur then ([], some ErrTooLong)
    else ([dropCR cur.reverse], none)
  | c :: cs, cur =>
    if c = LF then
      if maxScanTokenSize ≤ byteLen cur then ([], some ErrTooLong)
      else ((dropCR cur.reverse) :: (scanFrom cs []).1, (scanFrom cs []).2)
    else scanFrom cs (c :: cur)

/-- Go `bufio.NewScanner(r)` run to the end on input `content`: the successive
values of `scanner.Text()` and the final `scanner.Err()`. -/
def NewScanner (content : Str) : List Str × Option GoError :=
  scanFrom content []

/-! ## The functions of `main.go` -/

/-- The loop `for scanner.Scan() { ... }` of `setEnv` (lines 49-59) over the
lines still to come; the Boolean is the variable `cfgIsEmpty`. -/
def setEnvLoop : List Str → Bool → World → Outcome Bool × World
  | [], cfgIsEmpty, w => (.ret cfgIsEmpty, w)
  | text :: rest, _, w =>
    let env := Split text '='
    if env.length > 1 then
      match index env 0 with
      | .error p => (.panic p, w)
      | .ok key =>
        match index env 1 with
        | .error p => (.panic p, w)
        | .ok value =>
          match Setenv w key value with
          | .error err => (.panic (.error err), w)
          | .ok w1 => setEnvLoop rest false w1
    else setEnvLoop rest false w

/-- The function `setEnv` of `main.go` (lines 30-69).  The target
`&os.ErrNotExist` of `errors.As` is a pointer to a variable of the interface
type `error`. -/
def setEnv (w : World) : Outcome Unit × World :=
  let path := cfgPath w
  match OpenFile w with
  | (.error err, w1) =>
    if errorsAs err .errorInterface then
      match MkdirAll w1 with
      | (some err2, w2) => (.panic (.error err2), w2)
      | (none, w2) =>
        (.exit 0, Println w2 ("成功创建配置文件目录, 请重新运行此程序: ".toList ++ " ".toList ++ path))
    else (.panic (.error err), w1)
  | (.ok content, w1) =>
    let scanner := NewScanner content
    match setEnvLoop scanner.1 true w1 with
    | (.ret cfgIsEmpty, w2) =>
      if cfgIsEmpty then
        (.exit 1, Println w2 ("配置文件为空, 输出-h查看格式后填写在".toList ++ " ".toList
          ++ (path ++ "config.cfg".toList)))
      else
        match scanner.2 with
        | some err => (.panic (.error err), w2)
        | none => (.ret (), w2)
    | (.exit status, w2) => (.exit status, w2)
    | (.panic p, w2) => (.panic p, w2)

/-- The function `parseDeepLX` of `main.go`: one call of the endpoint. -/
def parseDeepLX (h : Host) (sourceText sourceLang targetLang : Str) (w : World) :
    Except GoError Str × World :=
  let call : Call := ⟨Getenv w "API".toList, ⟨sourceText, sourceLang, targetLang⟩⟩
  (h.post w.calls call, { w with calls := w.calls ++ [call] })

/-- The error `transToCustomized` and `transFile` return when the endpoint
rejects the target language. -/
def errUnsupportedLanguage : GoError :=
  .errorString "错误的语言代码, 你可以去看https://developers.deepl.com/docs/api-reference/translate/openapi-spec-for-text-translation".toList

/-- The function `transToEN` of `main.go`. -/
def transToEN (h : Host) (sourceText : Str) (w : World) : Outcome (Option GoError) × World :=
  match parseDeepLX h sourceText "ZH".toList "EN".toList w with
  | (.error err, w1) => (.ret (some err), w1)
  | (.ok text, w1) =>
    match h.unmarshal text with
    | .error err => (.ret (some err), w1)
    | .ok dlxResp => (.ret none, Println w1 dlxResp.Data)

/-- The function `transToZH` of `main.go`. -/
def transToZH (h : Host) (sourceText : Str) (w : World) : Outcome (Option GoError) × World :=
  match parseDeepLX h sourceText "EN".toList "ZH".toList w with
  | (.error err, w1) => (.ret (some err), w1)
  | (.ok text, w1) =>
    match h.unmarshal text with
    | .error err => (.ret (some err), w1)
    | .ok dlxResp => (.ret none, Println w1 dlxResp.Data)

/-- The `if lang == "" || !langCode.MatchString(lang) { ... } else { ... }`
statement that `transToCustomized` (lines 148-159) and `transFile` (lines
191-202) have in common: the call of `parseDeepLX` with the configured or the
given languages. -/
def callWithLang (h : Host) (sourceText lang : Str) (w : World) :
    Outcome (Except GoError Str) × World :=
  if lang.isEmpty || !MatchString langCode lang then
    ((.ret (parseDeepLX h sourceText (Getenv w "SourceLang".toList)
        (Getenv w "TargetLang".toList) w).1),
      (parseDeepLX h sourceText (Getenv w "SourceLang".toList)
        (Getenv w "TargetLang".toList) w).2)
  else
    match index (Split lang ':') 0 with
    | .error p => (.panic p, w)
    | .ok customizedSourceLang =>
      match index (Split lang ':') 1 with
      | .error p => (.panic p, w)
      | .ok customizedTargetLang =>
        ((.ret (parseDeepLX h sourceText customizedSourceLang customizedTargetLang w).1),
          (parseDeepLX h sourceText customizedSourceLang customizedTargetLang w).2)

/-- The statements of `transToCustomized` (lines 150-172) and `transFile`
(lines 193-214) from the error check of the `parseDeepLX` call on: the scan for
the rejection text, decoding, printing. -/
def finish (h : Host) (r : Outcome (Except GoError Str) × World) :
    Outcome (Option GoError) × World :=
  match r with
  | (.ret (.error err), w1) => (.ret (some err), w1)
  | (.ret (.ok text), w1) =>
    if MatchString targetLangNotSupported text then
      (.ret (some errUnsupportedLanguage), w1)
    else
      match h.unmarshal text with
      | .error err => (.ret (some err), w1)
      | .ok dlxResp => (.ret none, Println w1 dlxResp.Data)
  | (.exit status, w1) => (.exit status, w1)
  | (.panic p, w1) => (.panic p, w1)

/-- The function `transToCustomized` of `main.go`. -/
def transToCustomized (h : Host) (sourceText lang : Str) (w : World) :
    Outcome (Option GoError) × World :=
  finish h (callWithLang h sourceText lang w)

/-- The function `transFile` of `main.go`. -/
def transFile (h : Host) (filePath lang : Str) (w : World) :
    Outcome (Option GoError) × World :=
  match h.readFile filePath with
  | .error err => (.ret (some err), w)
  | .ok sourceText => finish h (callWithLang h sourceText lang w)

/-- The statement `if err != nil { panic(err) }` of `main`. -/
def orPanic (r : Outcome (Option GoError) × World) : Outcome Unit × World :=
  match r with
  | (.ret none, w) => (.ret (), w)
  | (.ret (some err), w) => (.panic (.error err), w)
  | (.exit status, w) => (.exit status, w)
  | (.panic p, w) => (.panic p, w)

/-- The loop `for scanner.Scan() { ... }` of `main` (lines 265-270) over the
lines of standard input still to come. -/
def mainLoop (h : Host) (lang : Str) : List Str → World → Outcome Unit × World
  | [], w => (.ret (), w)
  | text :: rest, w =>
    match orPanic (transToCustomized h text lang w) with
    | (.ret (), w1) => mainLoop h lang rest w1
    | (.exit status, w1) => (.exit status, w1)
    | (.panic p, w1) => (.panic p, w1)

/-- The function `main` of `main.go` from `setEnv()` on (lines 241-275), for
the flag values `flag.Parse()` has stored. -/
def main (h : Host) (fl : Flags) (w : World) : Outcome Unit × World :=
  match setEnv w with
  | (.ret (), w0) =>
    if fl.e ≠ [] then orPanic (transToEN h fl.e w0)
    else if fl.z ≠ [] then orPanic (transToZH h fl.z w0)
    else if fl.c ≠ [] then orPanic (transToCustomized h fl.c fl.l w0)
    else if fl.f ≠ [] then orPanic (transFile h fl.f fl.l w0)
    else
      let scanner := NewScanner w0.stdin
      match mainLoop h fl.l scanner.1 w0 with
      | (.ret (), w1) =>
        match scanner.2 with
        | some err => (.panic (.error err), w1)
        | none => (.ret (), w1)
      | (.exit status, w1) => (.exit status, w1)
      | (.panic p, w1) => (.panic p, w1)
  | (.exit status, w0) => (.exit status, w0)
  | (.panic p, w0) => (.panic p, w0)

/-! ## The specification's view of the components -/

/-- The Language Resolver in the words of the specification: the configured
default pair when the `-l` value is absent or does not match the pattern,
otherwise the first two parts of the value split on `:`. -/
def resolve (lang : Str) (w : World) : Str × Str :=
  if lang = [] ∨ MatchString langCode lang = false then
    (Getenv w "SourceLang".toList, Getenv w "TargetLang".toList)
  else
    ((Split lang ':').getD 0 [], (Split lang ':').getD 1 [])

/-- The call of the translation client for one text under the `-l` value `lang`. -/
def lineCall (w : World) (lang text : Str) : Call :=
  ⟨Getenv w "API".toList, ⟨text, (resolve lang w).1, (resolve lang w).2⟩⟩

/-- What translating with call `c` after the calls `hist` gives: the `data`
field to print, or the error (transport, rejected language, decoding). -/
def lineResult (h : Host) (hist : List Call) (c : Call) : Except GoError Str :=
  match h.post hist c with
  | .error err => .error err
  | .ok body =>
    if MatchString targetLangNotSupported body then .error errUnsupportedLanguage
    else
      match h.unmarshal body with
      | .error err => .error err
      | .ok resp => .ok resp.Data

/-- Whether `lit` occurs in `body` as a contiguous piece of text. -/
def containsText (lit body : Str) : Prop := ∃ pre post, body = pre ++ lit ++ post

/-! ## Concrete hosts and worlds for evaluation -/

/-- An endpoint that echoes the text of the request as the response body,
fails on the text `boom`, and a decoder that puts the body in `data`. -/
def echoHost : Host where
  post := fun _ c => if c.req.Text = "boom".toList then .error (.foreign 1) else .ok c.req.Text
  unmarshal := fun body => .ok ⟨200, 1, body, []⟩
  readFile := fun path => if path = "in.txt".toList then .ok "hello".toList else .error (.foreign 2)

/-- A world whose configuration directory exists, with the given content of
`config.cfg` and of standard input. -/
def worldWith (cfg : Option Str) (stdin : Str) : World where
  env := [("HOME".toList, "/home/u".toList)]
  cfgDir := true
  cfgFile := cfg
  openFault := none
  mkdirFault := none
  stdin := stdin
  calls := []
  stdout := []

/-- A first-run world: neither the configuration directory nor the file exists. -/
def freshWorld : World where
  env := [("HOME".toList, "/home/u".toList)]
  cfgDir := false
  cfgFile := none
  openFault := none
  mkdirFault := none
  stdin := []
  calls := []
  stdout := []

/-- A configured world: the environment `setEnv` leaves for a file with `API`,
`SourceLang` and `TargetLang` lines. -/
def readyWorld : World where
  env := [("TargetLang".toList, "JA".toList), ("SourceLang".toList, "DE".toList),
    ("API".toList, "http://x/y".toList), ("HOME".toList, "/home/u".toList)]
  cfgDir := true
  cfgFile := some "API=http://x/y".toList
  openFault := none
  mkdirFault := none
  stdin := []
  calls := []
  stdout := []

/-- A world whose `config.cfg` exists but cannot be opened: the operating
system answers `EACCES` (permission denied). -/
def deniedWorld : World where
  env := [("HOME".toList, "/home/u".toList)]
  cfgDir := true
  cfgFile := some "API=http://x/y".toList
  openFault := some .EACCES
  mkdirFault := none
  stdin := []
  calls := []
  stdout := []

/-- A configured world with three lines on standard input, the second of
which the endpoint of `echoHost` fails on. -/
def pipedWorld : World :=
  worldWith (some "API=http://x/y".toList)
    ("one".toList ++ [LF] ++ "boom".toList ++ [LF] ++ "three".toList ++ [LF])

/-- A first-run world in which `/home/u/.config` is a regular file: opening
`config.cfg` and creating the directory both fail with `ENOTDIR`, the latter
at the ancestor `/home/u/.config`. -/
def blockedWorld : World where
  env := [("HOME".toList, "/home/u".toList)]
  cfgDir := false
  cfgFile := none
  openFault := some .ENOTDIR
  mkdirFault := some ("/home/u/.config".toList, .ENOTDIR)
  stdin := []
  calls := []
  stdout := []

/-- All five flags given at once. -/
def allFlags : Flags where
  z := "hello".toList
  e := "nihao".toList
  l := "FR:DE".toList
  c := "salut".toList
  f := "in.txt".toList

/-- The flags `-z`, `-l`, `-c`, `-f` given, `-e` absent. -/
def zFlags : Flags := { allFlags with e := [] }

/-- The flags `-l`, `-c`, `-f` given, `-e` and `-z` absent. -/
def cFlags : Flags := { allFlags with e := [], z := [] }

/-- The flags `-l`, `-f` given, `-e`, `-z` and `-c` absent. -/
def fFlags : Flags := { allFlags with e := [], z := [], c := [] }

/-- Only `-l FR:DE` given: interactive mode. -/
def lFlags : Flags := { allFlags with e := [], z := [], c := [], f := [] }

/-- No flag given. -/
def noFlags : Flags where
  z := []
  e := []
  l := []
  c := []
  f := []

/-! ## Lemmas on `Split` and on matching -/

theorem Split_ne_nil (s : Str) (sep : Char) : Split s sep ≠ [] := by
  induction s with
  | nil => simp [Split]
  | cons c cs ih =>
    unfold Split
    split
    · simp
    · split <;> simp

theorem Split_no_sep (a : Str) (sep : Char) (ha : sep ∉ a) : Split a sep = [a] := by
  induction a with
  | nil => simp [Split]
  | cons c cs ih =>
    have hc : c ≠ sep := fun h => ha (by simp [h])
    have hcs : sep ∉ cs := fun h => ha (by simp [h])
    simp [Split, hc, ih hcs]

theorem Split_append_sep (a b : Str) (sep : Char) (ha : sep ∉ a) :
    Split (a ++ sep :: b) sep = a :: Split b sep := by
  induction a with
  | nil => simp [Split]
  | cons c cs ih =>
    have hc : c ≠ sep := fun h => ha (by simp [h])
    have hcs : sep ∉ cs := fun h => ha (by simp [h])
    simp [Split, hc, ih hcs]

theorem Split_length_of_mem (s : Str) (sep : Char) (hs : sep ∈ s) :
    2 ≤ (Split s sep).length := by
  induction s with
  | nil => simp at hs
  | cons c cs ih =>
    unfold Split
    by_cases hc : c = sep
    · have := Split_ne_nil cs sep
      simp only [hc, if_true, List.length_cons]
      have : 0 < (Split cs sep).length := List.length_pos.mpr this
      omega
    · have hcs : sep ∈ cs := by
        rcases List.mem_cons.mp hs with h | h
        · exact absurd h.symm hc
        · exact h
      have := ih hcs
      simp only [hc, if_false]
      split
      · rename_i heq; rw [heq] at this; simp at this
      · rename_i h t heq; rw [heq] at this; simpa using this


theorem mem_matchAt_seq (a b : Regex) (s r : Str) :
    r ∈ matchAt (.seq a b) s ↔ ∃ m, m ∈ matchAt a s ∧ r ∈ matchAt b m := by
  simp [matchAt, List.mem_flatMap]

theorem mem_matchAt_char (c : Char) (s r : Str) :
    r ∈ matchAt (.char c) s ↔ s = c :: r := by
  cases s with
  | nil => simp [matchAt]
  | cons x xs =>
    by_cases hx : x = c
    · simp [matchAt, hx, eq_comm]
    · simp [matchAt, hx]

theorem mem_matchAt_range (lo hi : Char) (s r : Str) :
    r ∈ matchAt (.range lo hi) s ↔ ∃ x, s = x :: r ∧ lo ≤ x ∧ x ≤ hi := by
  cases s with
  | nil => simp [matchAt]
  | cons x xs =>
    by_cases hx : lo ≤ x ∧ x ≤ hi
    · simp only [matchAt, hx, and_self, if_true, List.mem_singleton, List.cons.injEq]
      constructor
      · intro h
        exact ⟨x, ⟨rfl, h.symm⟩, hx⟩
      · rintro ⟨y, ⟨-, h⟩, -⟩
        exact h.symm
    · simp only [matchAt, hx, if_false, List.not_mem_nil, false_iff]
      rintro ⟨y, hy, h1, h2⟩
      simp only [List.cons.injEq] at hy
      exact hx (hy.1 ▸ ⟨h1, h2⟩)

theorem mem_matchAt_rep_two (a : Regex) (s r : Str) :
    r ∈ matchAt (.rep 2 a) s ↔ ∃ m, m ∈ matchAt a s ∧ r ∈ matchAt a m := by
  simp [matchAt, iterFlatMap, List.mem_flatMap]

theorem matchAt_langCode_colon (t : Str) (h : matchAt langCode t ≠ []) : ':' ∈ t := by
  obtain ⟨r, hr⟩ := List.exists_mem_of_ne_nil _ h
  unfold langCode at hr
  rw [mem_matchAt_seq] at hr
  obtain ⟨m1, hm1, hr⟩ := hr
  rw [mem_matchAt_seq] at hr
  obtain ⟨m2, hm2, -⟩ := hr
  rw [mem_matchAt_char] at hm2
  rw [mem_matchAt_rep_two] at hm1
  obtain ⟨m0, hm0, hm1⟩ := hm1
  unfold upper at hm0 hm1
  rw [mem_matchAt_range] at hm0 hm1
  obtain ⟨x, hx, -⟩ := hm0
  obtain ⟨y, hy, -⟩ := hm1
  subst hx hy hm2
  simp

theorem MatchString_langCode_colon (s : Str) (h : MatchString langCode s = true) : ':' ∈ s := by
  unfold MatchString at h
  rw [List.any_eq_true] at h
  obtain ⟨t, ht, hm⟩ := h
  have hne : matchAt langCode t ≠ [] := by
    intro h0
    simp [h0] at hm
  have hc := matchAt_langCode_colon t hne
  rw [List.mem_tails] at ht
  exact ht.subset hc


theorem Split_head_no_sep (sep : Char) :
    ∀ (s a : Str) (rest : List Str), Split s sep = a :: rest → sep ∉ a := by
  intro s
  induction s with
  | nil =>
    intro a rest h
    simp only [Split, List.cons.injEq] at h
    rw [← h.1]
    simp
  | cons c cs ih =>
    intro a rest h
    unfold Split at h
    by_cases hc : c = sep
    · simp only [hc, if_true, List.cons.injEq] at h
      rw [← h.1]
      simp
    · simp only [hc, if_false] at h
      split at h
      · simp only [List.cons.injEq] at h
        rw [← h.1]
        simp [Ne.symm hc]
      · rename_i x t heq
        simp only [List.cons.injEq] at h
        rw [← h.1]
        have := ih x t heq
        simp [Ne.symm hc, this]

theorem callWithLang_eq (h : Host) (text lang : Str) (w : World) :
    callWithLang h text lang w =
      (.ret (h.post w.calls (lineCall w lang text)),
        { w with calls := w.calls ++ [lineCall w lang text] }) := by
  unfold callWithLang lineCall resolve
  by_cases hg : lang = [] ∨ MatchString langCode lang = false
  · have hg2 : (lang.isEmpty || !MatchString langCode lang) = true := by
      rcases hg with h1 | h1
      · simp [h1]
      · simp [h1]
    simp only [hg2, if_true, hg, parseDeepLX]
  · have hm : MatchString langCode lang = true := by
      by_contra hc
      exact hg (Or.inr (by simpa using hc))
    have hne : lang ≠ [] := fun hc => hg (Or.inl hc)
    have hg2 : (lang.isEmpty || !MatchString langCode lang) = false := by
      simp [hm, hne]
    have hlen := Split_length_of_mem lang ':' (MatchString_langCode_colon lang hm)
    obtain ⟨a, b, rest, hsp⟩ : ∃ a b rest, Split lang ':' = a :: b :: rest := by
      match hs : Split lang ':' with
      | [] => rw [hs] at hlen; simp at hlen
      | [x] => rw [hs] at hlen; simp at hlen
      | a :: b :: rest => exact ⟨a, b, rest, rfl⟩
    simp [hg2, hg, hsp, index, parseDeepLX]

theorem transToCustomized_eq (h : Host) (text lang : Str) (w : World) :
    transToCustomized h text lang w =
      match lineResult h w.calls (lineCall w lang text) with
      | .error err => (.ret (some err), { w with calls := w.calls ++ [lineCall w lang text] })
      | .ok d => (.ret none, Println { w with calls := w.calls ++ [lineCall w lang text] } d) := by
  unfold transToCustomized
  rw [callWithLang_eq]
  unfold finish lineResult
  cases h.post w.calls (lineCall w lang text) with
  | error err => rfl
  | ok body =>
    simp only
    by_cases hm : MatchString targetLangNotSupported body = true
    · simp only [hm, if_true]
    · simp only [hm, if_false]
      cases h.unmarshal body with
      | error err => rfl
      | ok resp => rfl

theorem transFile_eq (h : Host) (path lang content : Str) (w : World)
    (hr : h.readFile path = .ok content) :
    transFile h path lang w = transToCustomized h content lang w := by
  unfold transFile transToCustomized
  rw [hr]

theorem transToCustomized_calls (h : Host) (text lang : Str) (w : World) :
    (transToCustomized h text lang w).2.calls = w.calls ++ [lineCall w lang text] := by
  rw [transToCustomized_eq]
  cases lineResult h w.calls (lineCall w lang text) <;> simp [Println]

theorem mem_matchAt_lit (l post : Str) : post ∈ matchAt (Regex.lit l) (l ++ post) := by
  induction l with
  | nil => simp [Regex.lit, matchAt]
  | cons c cs ih =>
    unfold Regex.lit
    rw [mem_matchAt_seq]
    exact ⟨cs ++ post, by rw [mem_matchAt_char]; rfl, ih⟩

theorem MatchString_lit_of_contains (l body : Str) (hc : containsText l body) :
    MatchString (Regex.lit l) body = true := by
  obtain ⟨pre, post, hb⟩ := hc
  unfold MatchString
  rw [List.any_eq_true]
  refine ⟨l ++ post, ?_, ?_⟩
  · rw [List.mem_tails, hb, List.append_assoc]
    exact List.suffix_append pre (l ++ post)
  · have := mem_matchAt_lit l post
    cases hm : matchAt (Regex.lit l) (l ++ post) with
    | nil => rw [hm] at this; simp at this
    | cons a t => simp

theorem resolve_of_valid (SRC TGT : Str) (w : World)
    (hm : MatchString langCode (SRC ++ ":".toList ++ TGT) = true) :
    (resolve (SRC ++ ":".toList ++ TGT) w = (SRC, TGT)) ↔ (':' ∉ SRC ∧ ':' ∉ TGT) := by
  have hne : SRC ++ ":".toList ++ TGT ≠ [] := by simp
  have hl : SRC ++ ":".toList ++ TGT = SRC ++ ':' :: TGT := by simp
  unfold resolve
  simp only [hm, hne, false_or, Bool.true_eq_false, if_false]
  constructor
  · intro hp
    have h1 : (Split (SRC ++ ":".toList ++ TGT) ':').getD 0 [] = SRC := congrArg Prod.fst hp
    have h2 : (Split (SRC ++ ":".toList ++ TGT) ':').getD 1 [] = TGT := congrArg Prod.snd hp
    have hS : ':' ∉ SRC := by
      cases hs : Split (SRC ++ ":".toList ++ TGT) ':' with
      | nil => exact absurd hs (Split_ne_nil _ _)
      | cons a rest =>
        have := Split_head_no_sep ':' _ a rest hs
        rw [hs] at h1
        simp at h1
        rwa [h1] at this
    refine ⟨hS, ?_⟩
    rw [hl, Split_append_sep SRC TGT ':' hS] at h2
    cases hs : Split TGT ':' with
    | nil => exact absurd hs (Split_ne_nil _ _)
    | cons a rest =>
      have := Split_head_no_sep ':' _ a rest hs
      rw [hs] at h2
      simp at h2
      rwa [h2] at this
  · rintro ⟨hS, hT⟩
    rw [hl, Split_append_sep SRC TGT ':' hS, Split_no_sep TGT ':' hT]
    simp

/-- C10: for every `-l` value that passes the guard of `transToCustomized` and
`transFile` (non-empty and matched by `langCode`), `strings.Split(lang, ":")`
has at least two elements, both index expressions succeed, and neither function
panics with an out-of-range index. -/
theorem C10_split_index_in_range (lang : Str) (_hne : lang ≠ [])
    (hm : MatchString langCode lang = true) :
    2 ≤ (Split lang ':').length ∧
    (∃ a b, index (Split lang ':') 0 = .ok a ∧ index (Split lang ':') 1 = .ok b) ∧
    ∀ (h : Host) (text path : Str) (w : World) (i n : Nat),
      (transToCustomized h text lang w).1 ≠ .panic (.indexOutOfRange i n) ∧
      (transFile h path lang w).1 ≠ .panic (.indexOutOfRange i n) := by
  have hlen := Split_length_of_mem lang ':' (MatchString_langCode_colon lang hm)
  refine ⟨hlen, ?_, ?_⟩
  · match hs : Split lang ':' with
    | [] => rw [hs] at hlen; simp at hlen
    | [x] => rw [hs] at hlen; simp at hlen
    | a :: b :: rest => exact ⟨a, b, by simp [index], by simp [index]⟩
  · intro h text path w i n
    have key : ∀ t, (transToCustomized h t lang w).1 ≠ .panic (.indexOutOfRange i n) := by
      intro t
      rw [transToCustomized_eq]
      cases lineResult h w.calls (lineCall w lang t) <;> simp
    refine ⟨key text, ?_⟩
    cases hr : h.readFile path with
    | error err => simp [transFile, hr]
    | ok content =>
      rw [transFile_eq h path lang content w hr]
      exact key content

/-- Witness of C10 at the `-l` value `EN:ZH`. -/
theorem C10_split_index_in_range_witness :
    2 ≤ (Split "EN:ZH".toList ':').length ∧
    (∃ a b, index (Split "EN:ZH".toList ':') 0 = .ok a ∧
      index (Split "EN:ZH".toList ':') 1 = .ok b) ∧
    ∀ (h : Host) (text path : Str) (w : World) (i n : Nat),
      (transToCustomized h text "EN:ZH".toList w).1 ≠ .panic (.indexOutOfRange i n) ∧
      (transFile h path "EN:ZH".toList w).1 ≠ .panic (.indexOutOfRange i n) :=
  C10_split_index_in_range "EN:ZH".toList (by decide) (by decide)

/-- C1, refuted as stated: the `-l` value `A:EN:ZH` is `SRC ++ ":" ++ TGT` for
`SRC = "A:EN"`, `TGT = "ZH"`, it is non-empty and matched by `langCode`, and the
pair handed to the translation client is `("A", "EN")`, not `(SRC, TGT)`. -/
theorem C1_counterexample :
    ¬ ∀ (h : Host) (text SRC TGT : Str) (w : World),
      SRC ++ ":".toList ++ TGT ≠ [] →
      MatchString langCode (SRC ++ ":".toList ++ TGT) = true →
      (transToCustomized h text (SRC ++ ":".toList ++ TGT) w).2.calls =
        w.calls ++ [⟨Getenv w "API".toList, ⟨text, SRC, TGT⟩⟩] := by
  intro hall
  have := hall echoHost "hi".toList "A:EN".toList "ZH".toList readyWorld (by decide) (by decide)
  revert this
  decide

/-- C1, amended: for `SRC` and `TGT` that contain no `:` and whose join
`SRC ++ ":" ++ TGT` is matched by `langCode`, `transToCustomized` and
`transFile` hand exactly `(SRC, TGT)` to the translation client; the configured
defaults play no role. -/
theorem C1_resolver_verbatim (h : Host) (text SRC TGT : Str) (w : World)
    (hm : MatchString langCode (SRC ++ ":".toList ++ TGT) = true)
    (hs : ':' ∉ SRC) (ht : ':' ∉ TGT) :
    (transToCustomized h text (SRC ++ ":".toList ++ TGT) w).2.calls =
        w.calls ++ [⟨Getenv w "API".toList, ⟨text, SRC, TGT⟩⟩] ∧
    ∀ path content, h.readFile path = .ok content →
      (transFile h path (SRC ++ ":".toList ++ TGT) w).2.calls =
        w.calls ++ [⟨Getenv w "API".toList, ⟨content, SRC, TGT⟩⟩] := by
  have hres : resolve (SRC ++ ":".toList ++ TGT) w = (SRC, TGT) :=
    (resolve_of_valid SRC TGT w hm).mpr ⟨hs, ht⟩
  have key : ∀ t, (transToCustomized h t (SRC ++ ":".toList ++ TGT) w).2.calls =
      w.calls ++ [⟨Getenv w "API".toList, ⟨t, SRC, TGT⟩⟩] := by
    intro t
    rw [transToCustomized_calls]
    unfold lineCall
    rw [hres]
  refine ⟨key text, ?_⟩
  intro path content hr
  rw [transFile_eq h path _ content w hr]
  exact key content

/-- Witness of C1 (amended) at `SRC = "EN"`, `TGT = "ZH"`, under a configuration
whose defaults are `DE` and `JA`. -/
theorem C1_resolver_verbatim_witness :
    (transToCustomized echoHost "hi".toList ("EN".toList ++ ":".toList ++ "ZH".toList)
        readyWorld).2.calls =
        readyWorld.calls ++ [⟨Getenv readyWorld "API".toList,
          ⟨"hi".toList, "EN".toList, "ZH".toList⟩⟩] ∧
    ∀ path content, echoHost.readFile path = .ok content →
      (transFile echoHost path ("EN".toList ++ ":".toList ++ "ZH".toList) readyWorld).2.calls =
        readyWorld.calls ++ [⟨Getenv readyWorld "API".toList,
          ⟨content, "EN".toList, "ZH".toList⟩⟩] :=
  C1_resolver_verbatim echoHost "hi".toList "EN".toList "ZH".toList readyWorld
    (by decide) (by decide) (by decide)

/-- C2: for every `-l` value that is empty or not matched by `langCode`,
`transToCustomized` and `transFile` hand the configured pair
(`SourceLang`, `TargetLang` of the environment) to the translation client, and
two rejected values give the same run. -/
theorem C2_resolver_fallback (h : Host) (text lang : Str) (w : World)
    (hbad : lang = [] ∨ MatchString langCode lang = false) :
    (transToCustomized h text lang w).2.calls =
      w.calls ++ [⟨Getenv w "API".toList,
        ⟨text, Getenv w "SourceLang".toList, Getenv w "TargetLang".toList⟩⟩] ∧
    (∀ path content, h.readFile path = .ok content →
      (transFile h path lang w).2.calls =
        w.calls ++ [⟨Getenv w "API".toList,
          ⟨content, Getenv w "SourceLang".toList, Getenv w "TargetLang".toList⟩⟩]) ∧
    ∀ lang2, (lang2 = [] ∨ MatchString langCode lang2 = false) →
      transToCustomized h text lang2 w = transToCustomized h text lang w ∧
      ∀ path, transFile h path lang2 w = transFile h path lang w := by
  have hres : ∀ l, (l = [] ∨ MatchString langCode l = false) →
      resolve l w = (Getenv w "SourceLang".toList, Getenv w "TargetLang".toList) := by
    intro l hl
    unfold resolve
    rw [if_pos hl]
  have hcall : ∀ l t, (l = [] ∨ MatchString langCode l = false) →
      lineCall w l t = ⟨Getenv w "API".toList,
        ⟨t, Getenv w "SourceLang".toList, Getenv w "TargetLang".toList⟩⟩ := by
    intro l t hl
    unfold lineCall
    rw [hres l hl]
  have hsame : ∀ l t, (l = [] ∨ MatchString langCode l = false) →
      transToCustomized h t l w = transToCustomized h t lang w := by
    intro l t hl
    rw [transToCustomized_eq, transToCustomized_eq, hcall l t hl, hcall lang t hbad]
  refine ⟨?_, ?_, ?_⟩
  · rw [transToCustomized_calls, hcall lang text hbad]
  · intro path content hr
    rw [transFile_eq h path lang content w hr, transToCustomized_calls, hcall lang content hbad]
  · intro lang2 h2
    refine ⟨hsame lang2 text h2, ?_⟩
    intro path
    cases hr : h.readFile path with
    | error err => simp [transFile, hr]
    | ok content =>
      rw [transFile_eq h path lang2 content w hr, transFile_eq h path lang content w hr]
      exact hsame lang2 content h2

/-- Witness of C2 at the lowercase `-l` value `en:zh`, compared with the
rejected values `EN`, `EN:ZH-H` and the empty string. -/
theorem C2_resolver_fallback_witness :
    MatchString langCode "EN".toList = false ∧
    MatchString langCode "EN:ZH-H".toList = false ∧
    ((transToCustomized echoHost "hi".toList "en:zh".toList readyWorld).2.calls =
      readyWorld.calls ++ [⟨Getenv readyWorld "API".toList,
        ⟨"hi".toList, Getenv readyWorld "SourceLang".toList,
          Getenv readyWorld "TargetLang".toList⟩⟩] ∧
    (∀ path content, echoHost.readFile path = .ok content →
      (transFile echoHost path "en:zh".toList readyWorld).2.calls =
        readyWorld.calls ++ [⟨Getenv readyWorld "API".toList,
          ⟨content, Getenv readyWorld "SourceLang".toList,
            Getenv readyWorld "TargetLang".toList⟩⟩]) ∧
    ∀ lang2, (lang2 = [] ∨ MatchString langCode lang2 = false) →
      transToCustomized echoHost "hi".toList lang2 readyWorld =
        transToCustomized echoHost "hi".toList "en:zh".toList readyWorld ∧
      ∀ path, transFile echoHost path lang2 readyWorld =
        transFile echoHost path "en:zh".toList readyWorld) :=
  ⟨by decide, by decide,
    C2_resolver_fallback echoHost "hi".toList "en:zh".toList readyWorld (Or.inr (by decide))⟩

/-- C3, evaluated at an endpoint whose body is the rejection text and decodes
with a populated `data` field: `transToEN` and `transToZH` do not scan the
body; each returns `nil` and prints the `data` field, where `transToCustomized`
on the same body returns the unsupported-language error and prints nothing. -/
theorem C3_fixed_modes_skip_scan :
    echoHost.post readyWorld.calls ⟨Getenv readyWorld "API".toList,
      ⟨targetLangNotSupportedText, "ZH".toList, "EN".toList⟩⟩ = .ok targetLangNotSupportedText ∧
    MatchString targetLangNotSupported targetLangNotSupportedText = true ∧
    (transToEN echoHost targetLangNotSupportedText readyWorld).1 = .ret none ∧
    (transToEN echoHost targetLangNotSupportedText readyWorld).2.stdout =
      [targetLangNotSupportedText] ∧
    (transToZH echoHost targetLangNotSupportedText readyWorld).1 = .ret none ∧
    (transToZH echoHost targetLangNotSupportedText readyWorld).2.stdout =
      [targetLangNotSupportedText] ∧
    (transToCustomized echoHost targetLangNotSupportedText [] readyWorld).1 =
      .ret (some errUnsupportedLanguage) ∧
    (transToCustomized echoHost targetLangNotSupportedText [] readyWorld).2.stdout = [] := by
  refine ⟨rfl, ?_, ?_, ?_, ?_, ?_, ?_, ?_⟩ <;> decide

/-- The sibling path of C3: in `transToCustomized` and `transFile`, whenever the
body the endpoint returns to the call contains the text
`Value for 'target_lang' not supported`, the function returns the
unsupported-language error and prints nothing, whatever the body decodes to. -/
theorem customized_detects_unsupported (h : Host) (text lang body : Str) (w : World)
    (hpost : h.post w.calls (lineCall w lang text) = .ok body)
    (hbody : containsText targetLangNotSupportedText body) :
    (transToCustomized h text lang w).1 = .ret (some errUnsupportedLanguage) ∧
    (transToCustomized h text lang w).2.stdout = w.stdout ∧
    ∀ path, h.readFile path = .ok text →
      (transFile h path lang w).1 = .ret (some errUnsupportedLanguage) ∧
      (transFile h path lang w).2.stdout = w.stdout := by
  have hm : MatchString targetLangNotSupported body = true :=
    MatchString_lit_of_contains _ _ hbody
  have hres : lineResult h w.calls (lineCall w lang text) = .error errUnsupportedLanguage := by
    unfold lineResult
    rw [hpost]
    simp [hm]
  have key : (transToCustomized h text lang w).1 = .ret (some errUnsupportedLanguage) ∧
      (transToCustomized h text lang w).2.stdout = w.stdout := by
    rw [transToCustomized_eq, hres]
    exact ⟨rfl, rfl⟩
  refine ⟨key.1, key.2, ?_⟩
  intro path hr
  rw [transFile_eq h path lang text w hr]
  exact key

theorem setEnvLoop_outcome :
    ∀ (lines : List Str) (b : Bool) (w : World),
      (∃ p, (setEnvLoop lines b w).1 = .panic p) ∨
      (setEnvLoop lines b w).1 = .ret (if lines = [] then b else false) := by
  intro lines
  induction lines with
  | nil => intro b w; right; simp [setEnvLoop]
  | cons text rest ih =>
    intro b w
    have hrest : ∀ w1, (∃ p, (setEnvLoop rest false w1).1 = .panic p) ∨
        (setEnvLoop rest false w1).1 = .ret false := by
      intro w1
      rcases ih false w1 with hp | hr
      · exact Or.inl hp
      · right
        rw [hr]
        split <;> rfl
    unfold setEnvLoop
    simp only [List.cons_ne_nil, if_false]
    split
    · split
      · left; exact ⟨_, rfl⟩
      · split
        · left; exact ⟨_, rfl⟩
        · split
          · left; exact ⟨_, rfl⟩
          · exact hrest _
    · exact hrest _

theorem scanFrom_ne_nil :
    ∀ (content cur : Str), (cur ≠ [] ∨ content ≠ []) →
      byteLen cur + byteLen (content.takeWhile (fun c => c != LF)) < maxScanTokenSize →
      (scanFrom content cur).1 ≠ [] := by
  intro content
  induction content with
  | nil =>
    intro cur h hlt
    have hcur : cur ≠ [] := by
      rcases h with h | h
      · exact h
      · exact absurd rfl h
    have hlt2 : ¬ maxScanTokenSize ≤ byteLen cur := by
      simp only [List.takeWhile_nil] at hlt
      have : byteLen ([] : Str) = 0 := rfl
      omega
    simp [scanFrom, hcur, hlt2]
  | cons c cs ih =>
    intro cur h hlt
    by_cases hc : c = LF
    · have hlt2 : ¬ maxScanTokenSize ≤ byteLen cur := by
        have : byteLen ((c :: cs).takeWhile (fun c => c != LF)) = 0 := by
          simp [hc, List.takeWhile, byteLen]
        omega
      simp [scanFrom, hc, hlt2]
    · have hstep : scanFrom (c :: cs) cur = scanFrom cs (c :: cur) := by
        simp [scanFrom, hc]
      rw [hstep]
      apply ih (c :: cur) (Or.inl (List.cons_ne_nil _ _))
      have htw : (c :: cs).takeWhile (fun c => c != LF) =
          c :: cs.takeWhile (fun c => c != LF) := by
        have hb : (c != LF) = true := by simpa using hc
        rw [List.takeWhile_cons, hb]
        rfl
      rw [htw] at hlt
      simp only [byteLen, List.map_cons, List.sum_cons] at hlt ⊢
      omega

theorem OpenFile_existing (w : World) (content : Str) (hdir : w.cfgDir = true)
    (hopen : w.openFault = none) (hfile : w.cfgFile = some content) :
    OpenFile w = (.ok content, w) := by
  unfold OpenFile
  simp [hdir, hopen, hfile]

/-- C4, evaluated at the line `API=http://x/y?a=b`: `setEnv` returns normally and
the variable `API` holds `http://x/y?a`, the text between the first and the
second `=`, not the whole remainder `http://x/y?a=b` of the line. -/
theorem C4_value_cut_at_second_equals :
    (setEnv (worldWith (some "API=http://x/y?a=b".toList) [])).1 = .ret () ∧
    Getenv (setEnv (worldWith (some "API=http://x/y?a=b".toList) [])).2 "API".toList =
      "http://x/y?a".toList ∧
    Getenv (setEnv (worldWith (some "API=http://x/y?a=b".toList) [])).2 "API".toList ≠
      "http://x/y?a=b".toList := by
  decide

/-- C5, refuted as stated: a configuration file made of one blank line has no
line with `=`, and `setEnv` returns normally instead of exiting with a
non-zero status. -/
theorem C5_counterexample :
    ¬ ∀ (w : World) (content : Str),
      w.cfgDir = true → w.openFault = none → w.cfgFile = some content →
      (∀ line ∈ (NewScanner content).1, '=' ∉ line) →
      ∃ n, n ≠ 0 ∧ (setEnv w).1 = .exit n := by
  intro hall
  obtain ⟨n, hn, he⟩ := hall (worldWith (some [LF]) []) [LF] rfl rfl rfl (by decide)
  have hr : (setEnv (worldWith (some [LF]) [])).1 = .ret () := by decide
  rw [hr] at he
  cases he

/-- C5, amended: for an existing configuration file that can be opened, the
empty file makes `setEnv` exit with status 1; and whenever the scanner yields
at least one line from the file, as it does for every non-empty file whose
first line is shorter than 65536 bytes, blank lines and lines without `=`
included, `setEnv` does not exit at all: it returns or panics. -/
theorem C5_config_empty (w : World) (content : Str) (hdir : w.cfgDir = true)
    (hopen : w.openFault = none) (hfile : w.cfgFile = some content) :
    (content = [] → (setEnv w).1 = .exit 1) ∧
    ((NewScanner content).1 ≠ [] → ∀ n, (setEnv w).1 ≠ .exit n) ∧
    (content ≠ [] → byteLen (content.takeWhile (fun c => c != LF)) < maxScanTokenSize →
      ∀ n, (setEnv w).1 ≠ .exit n) := by
  have hset : ∀ n, (setEnv w).1 = .exit n → (NewScanner content).1 = [] := by
    intro n
    unfold setEnv
    simp only [OpenFile_existing w content hdir hopen hfile]
    rcases setEnvLoop_outcome (NewScanner content).1 true w with ⟨p, hp⟩ | hr
    · cases hl : setEnvLoop (NewScanner content).1 true w with
      | mk o w2 =>
        rw [hl] at hp
        simp only at hp
        subst hp
        simp
    · cases hl : setEnvLoop (NewScanner content).1 true w with
      | mk o w2 =>
        rw [hl] at hr
        simp only at hr
        subst hr
        by_cases hnil : (NewScanner content).1 = []
        · simp [hnil]
        · simp only [hnil, if_false]
          cases (NewScanner content).2 <;> simp
  have hempty : (NewScanner content).1 = [] → (setEnv w).1 = .exit 1 := by
    intro hnil
    unfold setEnv
    simp only [OpenFile_existing w content hdir hopen hfile, hnil, setEnvLoop]
    simp
  refine ⟨?_, fun hne n he => hne (hset n he), ?_⟩
  · intro hc
    apply hempty
    rw [hc]
    rfl
  · intro hne hlt n he
    refine scanFrom_ne_nil content [] (Or.inr hne) ?_ (hset n he)
    simpa [byteLen] using hlt

/-- Witness of C5 (amended): the empty file, a file of one blank line, and a
file of one line without `=`. -/
theorem C5_config_empty_witness :
    (setEnv (worldWith (some []) [])).1 = .exit 1 ∧
    (∀ n, (setEnv (worldWith (some [LF]) [])).1 ≠ .exit n) ∧
    (∀ n, (setEnv (worldWith (some "noequals".toList) [])).1 ≠ .exit n) :=
  ⟨(C5_config_empty (worldWith (some []) []) [] rfl rfl rfl).1 rfl,
    (C5_config_empty (worldWith (some [LF]) []) [LF] rfl rfl rfl).2.2 (by decide) (by decide),
    (C5_config_empty (worldWith (some "noequals".toList) []) "noequals".toList
      rfl rfl rfl).2.2 (by decide) (by decide)⟩

/-- C8, refuted as stated: on a first run with neither directory nor file,
`setEnv` exits with status 0 and the directory exists afterwards, but no
`config.cfg` has been created. -/
theorem C8_counterexample :
    ¬ ∀ (w : World), w.cfgDir = false → w.cfgFile = none →
      (setEnv w).1 = .exit 0 ∧ (setEnv w).2.cfgDir = true ∧ (setEnv w).2.cfgFile = some [] := by
  intro hall
  have := hall freshWorld rfl rfl
  revert this
  decide

/-- C8, amended: when neither the configuration directory nor the file exists,
one run of `setEnv` creates the directory only, prints the notice and exits
with status 0, provided `os.MkdirAll` succeeds; `config.cfg` is not created by
this run, and when `os.MkdirAll` fails `setEnv` panics with the error
`os.MkdirAll` returned and creates nothing.  The empty file is created by the
next run, which exits with status 1. -/
theorem C8_first_run (w : World) (hdir : w.cfgDir = false) (hfile : w.cfgFile = none) :
    (w.mkdirFault = none →
      (setEnv w).1 = .exit 0 ∧ (setEnv w).2.cfgDir = true ∧ (setEnv w).2.cfgFile = none ∧
      (setEnv w).2.stdout = w.stdout ++
        ["成功创建配置文件目录, 请重新运行此程序: ".toList ++ " ".toList ++ cfgPath w] ∧
      (w.openFault = none →
        (setEnv (setEnv w).2).1 = .exit 1 ∧ (setEnv (setEnv w).2).2.cfgFile = some [])) ∧
    (∀ failedPath e, w.mkdirFault = some (failedPath, e) →
      (MkdirAll w).1 = some (.pathError "mkdir".toList failedPath (.errno e)) ∧
      (setEnv w).1 = .panic (.error (.pathError "mkdir".toList failedPath (.errno e))) ∧
      (setEnv w).2.cfgDir = false ∧ (setEnv w).2.cfgFile = none ∧
      (setEnv w).2.stdout = w.stdout) := by
  have hopenerr : ∃ err, OpenFile w = (.error err, w) := by
    unfold OpenFile
    cases w.openFault with
    | some e => exact ⟨_, rfl⟩
    | none => simp [hdir]
  obtain ⟨err, herr⟩ := hopenerr
  have has : errorsAs err .errorInterface = true := by
    cases err <;> simp [errorsAs, assignableTo]
  constructor
  · intro hmk
    have h1 : setEnv w = (.exit 0, Println { w with cfgDir := true }
        ("成功创建配置文件目录, 请重新运行此程序: ".toList ++ " ".toList ++ cfgPath w)) := by
      unfold setEnv
      simp only [herr, has, if_true, MkdirAll, hmk]
    refine ⟨by rw [h1], by rw [h1]; rfl, by rw [h1]; exact hfile, by rw [h1]; rfl, ?_⟩
    intro hopen
    rw [h1]
    unfold setEnv OpenFile
    simp [Println, hopen, hfile, NewScanner, scanFrom, setEnvLoop]
  · intro failedPath e hmk
    have h1 : setEnv w =
        (.panic (.error (.pathError "mkdir".toList failedPath (.errno e))), w) := by
      unfold setEnv
      simp only [herr, has, if_true, MkdirAll, hmk]
    refine ⟨by simp [MkdirAll, hmk], by rw [h1], by rw [h1]; exact hdir,
      by rw [h1]; exact hfile, by rw [h1]⟩

/-- Witness of C8 (amended): a first-run world where `os.MkdirAll` succeeds,
and one where `/home/u/.config` is a regular file, so that `os.MkdirAll` fails
at that ancestor. -/
theorem C8_first_run_witness :
    ((setEnv freshWorld).1 = .exit 0 ∧ (setEnv freshWorld).2.cfgDir = true ∧
      (setEnv freshWorld).2.cfgFile = none ∧
      (setEnv freshWorld).2.stdout = freshWorld.stdout ++
        ["成功创建配置文件目录, 请重新运行此程序: ".toList ++ " ".toList ++ cfgPath freshWorld] ∧
      (freshWorld.openFault = none →
        (setEnv (setEnv freshWorld).2).1 = .exit 1 ∧
        (setEnv (setEnv freshWorld).2).2.cfgFile = some [])) ∧
    ((MkdirAll blockedWorld).1 =
        some (.pathError "mkdir".toList "/home/u/.config".toList (.errno .ENOTDIR)) ∧
      (setEnv blockedWorld).1 =
        .panic (.error (.pathError "mkdir".toList "/home/u/.config".toList (.errno .ENOTDIR))) ∧
      (setEnv blockedWorld).2.cfgDir = false ∧ (setEnv blockedWorld).2.cfgFile = none ∧
      (setEnv blockedWorld).2.stdout = blockedWorld.stdout) :=
  ⟨(C8_first_run freshWorld rfl rfl).1 rfl,
    (C8_first_run blockedWorld rfl rfl).2 "/home/u/.config".toList .ENOTDIR rfl⟩

/-- C9, evaluated at a configuration file that exists but cannot be opened
(`EACCES`): the error is not a not-found error, yet `errors.As` with a target
of type `*error` accepts it, so `setEnv` calls `os.MkdirAll`, prints the
first-run notice and exits with status 0 instead of panicking. -/
theorem C9_permission_denied_exits_zero :
    (OpenFile deniedWorld).1 = .error (.pathError "open".toList
      "/home/u/.config/deeplx-for-command-line/config.cfg".toList (.errno .EACCES)) ∧
    (setEnv deniedWorld).1 = .exit 0 ∧
    (setEnv deniedWorld).2.stdout =
      ["成功创建配置文件目录, 请重新运行此程序:  /home/u/.config/deeplx-for-command-line/".toList] ∧
    ∀ err, (setEnv deniedWorld).1 ≠ .panic (.error err) := by
  refine ⟨rfl, by decide, by decide, ?_⟩
  intro err
  have h : (setEnv deniedWorld).1 = .exit 0 := by decide
  rw [h]
  intro hc
  cases hc

theorem lineCall_congr (w w1 : World) (henv : w1.env = w.env) (lang text : Str) :
    lineCall w1 lang text = lineCall w lang text := by
  unfold lineCall resolve Getenv
  rw [henv]

theorem mainLoop_run (h : Host) (lang : Str) :
    ∀ (lines : List Str) (w : World),
      ∃ (k : Nat) (datas : List Str), k ≤ lines.length ∧ datas.length = k ∧
        (∀ i, i < k → ∃ t d, lines.get? i = some t ∧ datas.get? i = some d ∧
          lineResult h (w.calls ++ (lines.take i).map (lineCall w lang))
            (lineCall w lang t) = .ok d) ∧
        (mainLoop h lang lines w).2.stdout = w.stdout ++ datas ∧
        (mainLoop h lang lines w).2.env = w.env ∧
        ((k = lines.length ∧ (mainLoop h lang lines w).1 = .ret () ∧
            (mainLoop h lang lines w).2.calls = w.calls ++ lines.map (lineCall w lang)) ∨
          (∃ t e, lines.get? k = some t ∧
            lineResult h (w.calls ++ (lines.take k).map (lineCall w lang))
              (lineCall w lang t) = .error e ∧
            (mainLoop h lang lines w).1 = .panic (.error e) ∧
            (mainLoop h lang lines w).2.calls =
              w.calls ++ (lines.take (k + 1)).map (lineCall w lang))) := by
  intro lines
  induction lines with
  | nil =>
    intro w
    refine ⟨0, [], le_refl _, rfl, ?_, by simp [mainLoop], by simp [mainLoop], ?_⟩
    · intro i hi
      omega
    · left
      simp [mainLoop]
  | cons text rest ih =>
    intro w
    cases hres : lineResult h w.calls (lineCall w lang text) with
    | error e =>
      have hstep : mainLoop h lang (text :: rest) w =
          (.panic (.error e), { w with calls := w.calls ++ [lineCall w lang text] }) := by
        unfold mainLoop
        rw [transToCustomized_eq, hres]
        rfl
      refine ⟨0, [], Nat.zero_le _, rfl, ?_, by rw [hstep]; simp, by rw [hstep], ?_⟩
      · intro i hi
        omega
      · right
        refine ⟨text, e, rfl, by simpa using hres, by rw [hstep], by rw [hstep]; simp⟩
    | ok d =>
      obtain ⟨k, datas, hk, hlen, hok, hout, henv, hend⟩ :=
        ih (Println { w with calls := w.calls ++ [lineCall w lang text] } d)
      have hstep : mainLoop h lang (text :: rest) w =
          mainLoop h lang rest (Println { w with calls := w.calls ++ [lineCall w lang text] } d) := by
        conv_lhs => unfold mainLoop
        rw [transToCustomized_eq, hres]
        rfl
      have hcall : ∀ t, lineCall (Println { w with calls := w.calls ++ [lineCall w lang text] } d)
          lang t = lineCall w lang t := fun t => lineCall_congr w _ rfl lang t
      have hcalls : (Println { w with calls := w.calls ++ [lineCall w lang text] } d).calls =
          w.calls ++ [lineCall w lang text] := rfl
      have hfun : lineCall (Println { w with calls := w.calls ++ [lineCall w lang text] } d) lang =
          lineCall w lang := funext hcall
      rw [hfun, hcalls] at hok hend
      refine ⟨k + 1, d :: datas, by simpa using hk, by simp [hlen], ?_, ?_, ?_, ?_⟩
      · intro i hi
        cases i with
        | zero => exact ⟨text, d, rfl, rfl, by simpa using hres⟩
        | succ j =>
          obtain ⟨t, dj, h1, h2, h3⟩ := hok j (by omega)
          refine ⟨t, dj, by simpa using h1, by simpa using h2, ?_⟩
          simpa [List.append_assoc] using h3
      · rw [hstep, hout]
        simp [Println]
      · rw [hstep, henv]
        rfl
      · rcases hend with ⟨h1, h2, h3⟩ | ⟨t, e, h1, h2, h3, h4⟩
        · left
          refine ⟨by simp [h1], by rw [hstep, h2], ?_⟩
          rw [hstep, h3]
          simp [List.append_assoc]
        · right
          refine ⟨t, e, by simpa using h1, ?_, by rw [hstep, h3], ?_⟩
          · simpa [List.append_assoc] using h2
          · rw [hstep, h4]
            simp [List.append_assoc]

theorem orPanic_snd (r : Outcome (Option GoError) × World) : (orPanic r).2 = r.2 := by
  unfold orPanic
  split <;> rfl

theorem main_eq (h : Host) (fl : Flags) (w : World) (hcfg : (setEnv w).1 = .ret ()) :
    main h fl w =
      if fl.e ≠ [] then orPanic (transToEN h fl.e (setEnv w).2)
      else if fl.z ≠ [] then orPanic (transToZH h fl.z (setEnv w).2)
      else if fl.c ≠ [] then orPanic (transToCustomized h fl.c fl.l (setEnv w).2)
      else if fl.f ≠ [] then orPanic (transFile h fl.f fl.l (setEnv w).2)
      else
        match mainLoop h fl.l (NewScanner (setEnv w).2.stdin).1 (setEnv w).2 with
        | (.ret (), w1) =>
          match (NewScanner (setEnv w).2.stdin).2 with
          | some err => (.panic (.error err), w1)
          | none => (.ret (), w1)
        | (.exit status, w1) => (.exit status, w1)
        | (.panic p, w1) => (.panic p, w1) := by
  unfold main
  cases hs : setEnv w with
  | mk o w0 =>
    rw [hs] at hcfg
    simp only at hcfg
    subst hcfg
    rfl

theorem transToEN_calls (h : Host) (text : Str) (w : World) :
    (transToEN h text w).2.calls =
      w.calls ++ [⟨Getenv w "API".toList, ⟨text, "ZH".toList, "EN".toList⟩⟩] := by
  unfold transToEN parseDeepLX
  split
  · rename_i err w1 heq
    simp only [Prod.mk.injEq] at heq
    rw [← heq.2]
  · rename_i body w1 heq
    simp only [Prod.mk.injEq] at heq
    rw [← heq.2]
    split <;> rfl

theorem transToZH_calls (h : Host) (text : Str) (w : World) :
    (transToZH h text w).2.calls =
      w.calls ++ [⟨Getenv w "API".toList, ⟨text, "EN".toList, "ZH".toList⟩⟩] := by
  unfold transToZH parseDeepLX
  split
  · rename_i err w1 heq
    simp only [Prod.mk.injEq] at heq
    rw [← heq.2]
  · rename_i body w1 heq
    simp only [Prod.mk.injEq] at heq
    rw [← heq.2]
    split <;> rfl

theorem main_interactive_snd (h : Host) (fl : Flags) (w : World)
    (hcfg : (setEnv w).1 = .ret ()) (he : fl.e = []) (hz : fl.z = []) (hc : fl.c = [])
    (hf : fl.f = []) :
    (main h fl w).2 = (mainLoop h fl.l (NewScanner (setEnv w).2.stdin).1 (setEnv w).2).2 := by
  rw [main_eq h fl w hcfg]
  simp only [he, hz, hc, hf, ne_eq, not_true_eq_false, if_false]
  split
  · rename_i w1 heq
    rw [heq]
    split <;> rfl
  · rename_i s w1 heq
    rw [heq]
  · rename_i p w1 heq
    rw [heq]

theorem main_interactive_fst (h : Host) (fl : Flags) (w : World)
    (hcfg : (setEnv w).1 = .ret ()) (he : fl.e = []) (hz : fl.z = []) (hc : fl.c = [])
    (hf : fl.f = []) :
    (main h fl w).1 =
      match (mainLoop h fl.l (NewScanner (setEnv w).2.stdin).1 (setEnv w).2).1 with
      | .ret () =>
        (match (NewScanner (setEnv w).2.stdin).2 with
        | some err => .panic (.error err)
        | none => .ret ())
      | .exit status => .exit status
      | .panic p => .panic p := by
  rw [main_eq h fl w hcfg]
  simp only [he, hz, hc, hf, ne_eq, not_true_eq_false, if_false]
  split
  · rename_i w1 heq
    rw [heq]
    simp only
    split <;> rfl
  · rename_i s w1 heq
    rw [heq]
  · rename_i p w1 heq
    rw [heq]

theorem main_interactive_run (h : Host) (fl : Flags) (w : World)
    (hcfg : (setEnv w).1 = .ret ()) (he : fl.e = []) (hz : fl.z = []) (hc : fl.c = [])
    (hf : fl.f = []) :
    ∃ (k : Nat) (datas : List Str),
      k ≤ (NewScanner (setEnv w).2.stdin).1.length ∧ datas.length = k ∧
      (∀ i, i < k → ∃ t d, (NewScanner (setEnv w).2.stdin).1.get? i = some t ∧
        datas.get? i = some d ∧
        lineResult h ((setEnv w).2.calls ++
            ((NewScanner (setEnv w).2.stdin).1.take i).map (lineCall (setEnv w).2 fl.l))
          (lineCall (setEnv w).2 fl.l t) = .ok d) ∧
      (main h fl w).2.stdout = (setEnv w).2.stdout ++ datas ∧
      ((k = (NewScanner (setEnv w).2.stdin).1.length ∧
          (main h fl w).2.calls = (setEnv w).2.calls ++
            (NewScanner (setEnv w).2.stdin).1.map (lineCall (setEnv w).2 fl.l) ∧
          (main h fl w).1 =
            (match (NewScanner (setEnv w).2.stdin).2 with
            | some err => .panic (.error err)
            | none => .ret ())) ∨
        (∃ t e, (NewScanner (setEnv w).2.stdin).1.get? k = some t ∧
          lineResult h ((setEnv w).2.calls ++
              ((NewScanner (setEnv w).2.stdin).1.take k).map (lineCall (setEnv w).2 fl.l))
            (lineCall (setEnv w).2 fl.l t) = .error e ∧
          (main h fl w).1 = .panic (.error e) ∧
          (main h fl w).2.calls = (setEnv w).2.calls ++
            ((NewScanner (setEnv w).2.stdin).1.take (k + 1)).map
              (lineCall (setEnv w).2 fl.l))) := by
  obtain ⟨k, datas, hk, hlen, hok, hout, -, hend⟩ :=
    mainLoop_run h fl.l (NewScanner (setEnv w).2.stdin).1 (setEnv w).2
  have hsnd := main_interactive_snd h fl w hcfg he hz hc hf
  have hfst := main_interactive_fst h fl w hcfg he hz hc hf
  refine ⟨k, datas, hk, hlen, hok, by rw [hsnd, hout], ?_⟩
  rcases hend with ⟨h1, h2, h3⟩ | ⟨t, e, h1, h2, h3, h4⟩
  · left
    refine ⟨h1, by rw [hsnd, h3], ?_⟩
    rw [hfst, h2]
  · right
    refine ⟨t, e, h1, h2, ?_, by rw [hsnd, h4]⟩
    rw [hfst, h3]

/-- C6: once `setEnv` has returned, `main` runs exactly one mode, chosen by the
priority `-e`, `-z`, `-c`, `-f`, interactive.  `-e` sends the fixed pair
(`ZH`, `EN`) and `-z` the fixed pair (`EN`, `ZH`), whatever `-l` and the
configuration hold; `-c` and `-f` send one call with the pair the Language
Resolver gives for the `-l` value; and the interactive mode sends, for the
lines of standard input in order up to the first failing one, one call each
with the pair the Language Resolver gives for the `-l` value, prints the `data`
fields of the lines before the first failure, and ends by returning, by the
panic of the scanner error, or by the panic of the first failing line. -/
theorem C6_dispatch (h : Host) (fl : Flags) (w : World) (hcfg : (setEnv w).1 = .ret ()) :
    (fl.e ≠ [] →
      main h fl w = orPanic (transToEN h fl.e (setEnv w).2) ∧
      (main h fl w).2.calls = (setEnv w).2.calls ++
        [⟨Getenv (setEnv w).2 "API".toList, ⟨fl.e, "ZH".toList, "EN".toList⟩⟩]) ∧
    (fl.e = [] → fl.z ≠ [] →
      main h fl w = orPanic (transToZH h fl.z (setEnv w).2) ∧
      (main h fl w).2.calls = (setEnv w).2.calls ++
        [⟨Getenv (setEnv w).2 "API".toList, ⟨fl.z, "EN".toList, "ZH".toList⟩⟩]) ∧
    (fl.e = [] → fl.z = [] → fl.c ≠ [] →
      main h fl w = orPanic (transToCustomized h fl.c fl.l (setEnv w).2) ∧
      (main h fl w).2.calls = (setEnv w).2.calls ++
        [⟨Getenv (setEnv w).2 "API".toList,
          ⟨fl.c, (resolve fl.l (setEnv w).2).1, (resolve fl.l (setEnv w).2).2⟩⟩]) ∧
    (fl.e = [] → fl.z = [] → fl.c = [] → fl.f ≠ [] →
      main h fl w = orPanic (transFile h fl.f fl.l (setEnv w).2) ∧
      (∀ content, h.readFile fl.f = .ok content →
        (main h fl w).2.calls = (setEnv w).2.calls ++
          [⟨Getenv (setEnv w).2 "API".toList,
            ⟨content, (resolve fl.l (setEnv w).2).1, (resolve fl.l (setEnv w).2).2⟩⟩]) ∧
      (∀ err, h.readFile fl.f = .error err →
        main h fl w = (.panic (.error err), (setEnv w).2))) ∧
    (fl.e = [] → fl.z = [] → fl.c = [] → fl.f = [] →
      ∃ (k : Nat) (datas : List Str),
        k ≤ (NewScanner (setEnv w).2.stdin).1.length ∧ datas.length = k ∧
        (∀ i, i < k → ∃ t d, (NewScanner (setEnv w).2.stdin).1.get? i = some t ∧
          datas.get? i = some d ∧
          lineResult h ((setEnv w).2.calls ++
              ((NewScanner (setEnv w).2.stdin).1.take i).map (lineCall (setEnv w).2 fl.l))
            (lineCall (setEnv w).2 fl.l t) = .ok d) ∧
        (main h fl w).2.stdout = (setEnv w).2.stdout ++ datas ∧
        ((k = (NewScanner (setEnv w).2.stdin).1.length ∧
            (main h fl w).2.calls = (setEnv w).2.calls ++
              (NewScanner (setEnv w).2.stdin).1.map (lineCall (setEnv w).2 fl.l) ∧
            (main h fl w).1 =
              (match (NewScanner (setEnv w).2.stdin).2 with
              | some err => .panic (.error err)
              | none => .ret ())) ∨
          (∃ t e, (NewScanner (setEnv w).2.stdin).1.get? k = some t ∧
            lineResult h ((setEnv w).2.calls ++
                ((NewScanner (setEnv w).2.stdin).1.take k).map (lineCall (setEnv w).2 fl.l))
              (lineCall (setEnv w).2 fl.l t) = .error e ∧
            (main h fl w).1 = .panic (.error e) ∧
            (main h fl w).2.calls = (setEnv w).2.calls ++
              ((NewScanner (setEnv w).2.stdin).1.take (k + 1)).map
                (lineCall (setEnv w).2 fl.l)))) := by
  refine ⟨?_, ?_, ?_, ?_, ?_⟩
  · intro he
    have hm : main h fl w = orPanic (transToEN h fl.e (setEnv w).2) := by
      rw [main_eq h fl w hcfg, if_pos he]
    exact ⟨hm, by rw [hm, orPanic_snd, transToEN_calls]⟩
  · intro he hz
    have hm : main h fl w = orPanic (transToZH h fl.z (setEnv w).2) := by
      rw [main_eq h fl w hcfg, if_neg (not_not.mpr he), if_pos hz]
    exact ⟨hm, by rw [hm, orPanic_snd, transToZH_calls]⟩
  · intro he hz hc
    have hm : main h fl w = orPanic (transToCustomized h fl.c fl.l (setEnv w).2) := by
      rw [main_eq h fl w hcfg, if_neg (not_not.mpr he), if_neg (not_not.mpr hz), if_pos hc]
    exact ⟨hm, by rw [hm, orPanic_snd, transToCustomized_calls]; rfl⟩
  · intro he hz hc hf
    have hm : main h fl w = orPanic (transFile h fl.f fl.l (setEnv w).2) := by
      rw [main_eq h fl w hcfg, if_neg (not_not.mpr he), if_neg (not_not.mpr hz),
        if_neg (not_not.mpr hc), if_pos hf]
    refine ⟨hm, ?_, ?_⟩
    · intro content hr
      rw [hm, orPanic_snd, transFile_eq h fl.f fl.l content _ hr, transToCustomized_calls]
      rfl
    · intro err hr
      rw [hm]
      simp [transFile, hr, orPanic]
  · intro he hz hc hf
    exact main_interactive_run h fl w hcfg he hz hc hf

/-- Witness of C6 on a configured world with standard input `one`, `boom`,
`three`: all five flags (`-e` wins), then `-e` absent (`-z` wins), then `-c`
with `-l FR:DE`, then `-f` with `-l FR:DE` on a file holding `hello`, then
`-l FR:DE` alone (interactive). -/
theorem C6_dispatch_witness :
    (main echoHost allFlags pipedWorld).2.calls =
      [⟨"http://x/y".toList, ⟨"nihao".toList, "ZH".toList, "EN".toList⟩⟩] ∧
    (main echoHost zFlags pipedWorld).2.calls =
      [⟨"http://x/y".toList, ⟨"hello".toList, "EN".toList, "ZH".toList⟩⟩] ∧
    (main echoHost cFlags pipedWorld).2.calls =
      [⟨"http://x/y".toList, ⟨"salut".toList, "FR".toList, "DE".toList⟩⟩] ∧
    (main echoHost fFlags pipedWorld).2.calls =
      [⟨"http://x/y".toList, ⟨"hello".toList, "FR".toList, "DE".toList⟩⟩] ∧
    (∃ (k : Nat) (datas : List Str),
      k ≤ (NewScanner (setEnv pipedWorld).2.stdin).1.length ∧ datas.length = k ∧
      (∀ i, i < k → ∃ t d, (NewScanner (setEnv pipedWorld).2.stdin).1.get? i = some t ∧
        datas.get? i = some d ∧
        lineResult echoHost ((setEnv pipedWorld).2.calls ++
            ((NewScanner (setEnv pipedWorld).2.stdin).1.take i).map (lineCall (setEnv pipedWorld).2 lFlags.l))
          (lineCall (setEnv pipedWorld).2 lFlags.l t) = .ok d) ∧
      (main echoHost lFlags pipedWorld).2.stdout = (setEnv pipedWorld).2.stdout ++ datas ∧
      ((k = (NewScanner (setEnv pipedWorld).2.stdin).1.length ∧
          (main echoHost lFlags pipedWorld).2.calls = (setEnv pipedWorld).2.calls ++
            (NewScanner (setEnv pipedWorld).2.stdin).1.map (lineCall (setEnv pipedWorld).2 lFlags.l) ∧
          (main echoHost lFlags pipedWorld).1 =
            (match (NewScanner (setEnv pipedWorld).2.stdin).2 with
            | some err => .panic (.error err)
            | none => .ret ())) ∨
        (∃ t e, (NewScanner (setEnv pipedWorld).2.stdin).1.get? k = some t ∧
          lineResult echoHost ((setEnv pipedWorld).2.calls ++
              ((NewScanner (setEnv pipedWorld).2.stdin).1.take k).map (lineCall (setEnv pipedWorld).2 lFlags.l))
            (lineCall (setEnv pipedWorld).2 lFlags.l t) = .error e ∧
          (main echoHost lFlags pipedWorld).1 = .panic (.error e) ∧
          (main echoHost lFlags pipedWorld).2.calls = (setEnv pipedWorld).2.calls ++
            ((NewScanner (setEnv pipedWorld).2.stdin).1.take (k + 1)).map
              (lineCall (setEnv pipedWorld).2 lFlags.l)))) :=
  ⟨((C6_dispatch echoHost allFlags pipedWorld (by decide)).1 (by decide)).2.trans (by decide),
    ((C6_dispatch echoHost zFlags pipedWorld (by decide)).2.1 rfl (by decide)).2.trans
      (by decide),
    ((C6_dispatch echoHost cFlags pipedWorld (by decide)).2.2.1 rfl rfl (by decide)).2.trans
      (by decide),
    (((C6_dispatch echoHost fFlags pipedWorld (by decide)).2.2.2.1 rfl rfl rfl
      (by decide)).2.1 "hello".toList rfl).trans (by decide),
    (C6_dispatch echoHost lFlags pipedWorld (by decide)).2.2.2.2 rfl rfl rfl rfl⟩

/-- C7: in interactive mode (no `-e`, `-z`, `-c`, `-f`, configuration loaded),
for every content of standard input and every endpoint, there is a number `k`
of lines such that the first `k` lines each succeed and their `data` fields are
exactly what is printed, in input order; each line is translated by one call
issued after the calls of the lines before it; and either all lines were
translated and nothing else was sent, or line `k` is the first failing line,
`main` panics with its error, and the calls stop with that line. -/
theorem C7_interactive_mode (h : Host) (fl : Flags) (w : World)
    (hcfg : (setEnv w).1 = .ret ()) (he : fl.e = []) (hz : fl.z = []) (hc : fl.c = [])
    (hf : fl.f = []) :
    ∃ (k : Nat) (datas : List Str),
      k ≤ (NewScanner (setEnv w).2.stdin).1.length ∧ datas.length = k ∧
      (∀ i, i < k → ∃ t d, (NewScanner (setEnv w).2.stdin).1.get? i = some t ∧
        datas.get? i = some d ∧
        lineResult h ((setEnv w).2.calls ++
            ((NewScanner (setEnv w).2.stdin).1.take i).map (lineCall (setEnv w).2 fl.l))
          (lineCall (setEnv w).2 fl.l t) = .ok d) ∧
      (main h fl w).2.stdout = (setEnv w).2.stdout ++ datas ∧
      ((k = (NewScanner (setEnv w).2.stdin).1.length ∧
          (main h fl w).2.calls = (setEnv w).2.calls ++
            (NewScanner (setEnv w).2.stdin).1.map (lineCall (setEnv w).2 fl.l) ∧
          (main h fl w).1 =
            (match (NewScanner (setEnv w).2.stdin).2 with
            | some err => .panic (.error err)
            | none => .ret ())) ∨
        (∃ t e, (NewScanner (setEnv w).2.stdin).1.get? k = some t ∧
          lineResult h ((setEnv w).2.calls ++
              ((NewScanner (setEnv w).2.stdin).1.take k).map (lineCall (setEnv w).2 fl.l))
            (lineCall (setEnv w).2 fl.l t) = .error e ∧
          (main h fl w).1 = .panic (.error e) ∧
          (main h fl w).2.calls = (setEnv w).2.calls ++
            ((NewScanner (setEnv w).2.stdin).1.take (k + 1)).map
              (lineCall (setEnv w).2 fl.l))) := by
  obtain ⟨k, datas, hk, hlen, hok, hout, -, hend⟩ :=
    mainLoop_run h fl.l (NewScanner (setEnv w).2.stdin).1 (setEnv w).2
  have hsnd := main_interactive_snd h fl w hcfg he hz hc hf
  have hfst := main_interactive_fst h fl w hcfg he hz hc hf
  refine ⟨k, datas, hk, hlen, hok, by rw [hsnd, hout], ?_⟩
  rcases hend with ⟨h1, h2, h3⟩ | ⟨t, e, h1, h2, h3, h4⟩
  · left
    refine ⟨h1, by rw [hsnd, h3], ?_⟩
    rw [hfst, h2]
  · right
    refine ⟨t, e, h1, h2, ?_, by rw [hsnd, h4]⟩
    rw [hfst, h3]

/-- Witness of C7: standard input `one`, `boom`, `three` with an endpoint that
fails on `boom`. -/
theorem C7_interactive_mode_witness :
    ∃ (k : Nat) (datas : List Str),
      k ≤ (NewScanner (setEnv pipedWorld).2.stdin).1.length ∧ datas.length = k ∧
      (∀ i, i < k → ∃ t d, (NewScanner (setEnv pipedWorld).2.stdin).1.get? i = some t ∧
        datas.get? i = some d ∧
        lineResult echoHost ((setEnv pipedWorld).2.calls ++
            ((NewScanner (setEnv pipedWorld).2.stdin).1.take i).map
              (lineCall (setEnv pipedWorld).2 noFlags.l))
          (lineCall (setEnv pipedWorld).2 noFlags.l t) = .ok d) ∧
      (main echoHost noFlags pipedWorld).2.stdout = (setEnv pipedWorld).2.stdout ++ datas ∧
      ((k = (NewScanner (setEnv pipedWorld).2.stdin).1.length ∧
          (main echoHost noFlags pipedWorld).2.calls = (setEnv pipedWorld).2.calls ++
            (NewScanner (setEnv pipedWorld).2.stdin).1.map
              (lineCall (setEnv pipedWorld).2 noFlags.l) ∧
          (main echoHost noFlags pipedWorld).1 =
            (match (NewScanner (setEnv pipedWorld).2.stdin).2 with
            | some err => .panic (.error err)
            | none => .ret ())) ∨
        (∃ t e, (NewScanner (setEnv pipedWorld).2.stdin).1.get? k = some t ∧
          lineResult echoHost ((setEnv pipedWorld).2.calls ++
              ((NewScanner (setEnv pipedWorld).2.stdin).1.take k).map
                (lineCall (setEnv pipedWorld).2 noFlags.l))
            (lineCall (setEnv pipedWorld).2 noFlags.l t) = .error e ∧
          (main echoHost noFlags pipedWorld).1 = .panic (.error e) ∧
          (main echoHost noFlags pipedWorld).2.calls = (setEnv pipedWorld).2.calls ++
            ((NewScanner (setEnv pipedWorld).2.stdin).1.take (k + 1)).map
              (lineCall (setEnv pipedWorld).2 noFlags.l))) :=
  C7_interactive_mode echoHost noFlags pipedWorld (by decide) rfl rfl rfl rfl

end DeepLX
